import Mathlib

/-!
Shallow embedding of the restaurant ordering service in src/main.py:
a single SQLite-backed table of orders with three HTTP handlers,
place_order (POST /order/<table_number>), kitchen (GET /kitchen/) and
delete_order (GET /delete/<id>).
-/

namespace OrderApp

/-- A persisted row of the Order table (src/main.py, class Order).
The schema declares customer_name, table_number and orders NOT NULL,
so a stored row always carries concrete values; id is the integer
primary key. table_number comes from the Flask route converter
`<int:table_number>`, which only matches non-negative integers. -/
structure OrderRow where
  id : Nat
  customer_name : String
  table_number : Nat
  orders : String
deriving DecidableEq, Repr

/-- The database state: the rows of the Order table, in insertion order
(the order in which SQLite returns them for an unordered SELECT). -/
abbrev Store := List OrderRow

/-- The ids currently present in the table. -/
def ids (s : Store) : List Nat := s.map (fun r => r.id)

/-- The largest id currently in use (0 for the empty table). -/
def maxId (s : Store) : Nat := (ids s).foldr max 0

/-- The id SQLite assigns to the next inserted row. The column is
`INTEGER PRIMARY KEY` with no AUTOINCREMENT keyword (SQLAlchemy's SQLite
dialect does not emit AUTOINCREMENT by default), so the new rowid is one
larger than the largest rowid currently in the table, and 1 for an empty
table. In particular an id can be assigned again after the row holding
the current maximum id is deleted. -/
def nextId (s : Store) : Nat := maxId s + 1

/-- The Order object as constructed in place_order before the commit:
customer_name and orders come from request.form.get and may be None
(the form field was absent); table_number is the path parameter. -/
structure PendingOrder where
  customer_name : Option String
  table_number : Nat
  orders : Option String

/-- One committed INSERT (db.session.add + db.session.commit in
place_order). The storageFails flag injects an environment-level
storage failure; otherwise SQLite enforces the NOT NULL constraints and,
when they hold, assigns the next rowid and appends the row. -/
def commitInsert (s : Store) (p : PendingOrder) (storageFails : Bool) :
    Except String (Store × OrderRow) :=
  if storageFails then Except.error "storage unavailable"
  else
    match p.customer_name, p.orders with
    | some cn, some od =>
        let row : OrderRow := ⟨nextId s, cn, p.table_number, od⟩
        Except.ok (s ++ [row], row)
    | _, _ => Except.error "NOT NULL constraint failed"

/-- A key-value entry of the dict produced from an Order. -/
inductive Value where
  | int (n : Nat)
  | str (s : String)
deriving DecidableEq, Repr

/-- The body of an HTTP response, one constructor per rendered outcome
of the three handlers. -/
inductive Body where
  | orderSummary (customer_name : String) (table_number : Nat)
      (order_summary : String)
  | kitchenView (orders : List (List (String × Value)))
  | errorText (msg : String)
  | notFound
  | redirectToKitchen
deriving DecidableEq, Repr

/-- An HTTP response: status code and body. -/
structure HttpResponse where
  status : Nat
  body : Body
deriving DecidableEq, Repr

/-- Handler for POST /order/<int:table_number> (src/main.py,
place_order). Builds an Order from the path parameter and the two form
fields, tries to commit the insert; on any exception rolls the session
back (store unchanged) and returns the error text with status 500;
on success renders order_summary.html from the committed object's
attributes and the path parameter. Returns the new store and the
response. -/
def place_order (s : Store) (table_number : Nat)
    (customer_name order_summary : Option String) (storageFails : Bool) :
    Store × HttpResponse :=
  match commitInsert s ⟨customer_name, table_number, order_summary⟩ storageFails with
  | Except.ok (s', row) =>
      (s', ⟨200, Body.orderSummary row.customer_name table_number row.orders⟩)
  | Except.error e =>
      (s, ⟨500, Body.errorText ("Error placing order: " ++ e)⟩)

/-- dict(order): the iteration protocol of Order (src/main.py,
Order.__iter__) yields the four key-value pairs in this fixed order. -/
def orderDict (o : OrderRow) : List (String × Value) :=
  [("id", Value.int o.id),
   ("customer_name", Value.str o.customer_name),
   ("table_number", Value.int o.table_number),
   ("orders", Value.str o.orders)]

/-- Handler for GET /kitchen/ (src/main.py, kitchen): reads all rows
(Order.query.all()), converts each to a dict and renders kitchen.html.
Returns the (unchanged) store and the response. -/
def kitchen (s : Store) : Store × HttpResponse :=
  (s, ⟨200, Body.kitchenView (s.map orderDict)⟩)

/-- Handler for GET /delete/<int:id> (src/main.py, delete_order).
Order.query.get_or_404(id) aborts with 404 when no row has that primary
key; otherwise the found row is deleted and committed — on a commit
failure the session is rolled back (store unchanged) and the error text
is returned with status 500; on success the response redirects to the
kitchen view (302). -/
def delete_order (s : Store) (id : Nat) (storageFails : Bool) :
    Store × HttpResponse :=
  match s.find? (fun r => r.id == id) with
  | none => (s, ⟨404, Body.notFound⟩)
  | some _ =>
      if storageFails then
        (s, ⟨500, Body.errorText "Error deleting order: storage unavailable"⟩)
      else
        (s.eraseP (fun r => r.id == id), ⟨302, Body.redirectToKitchen⟩)

/-- The database states reachable from the empty table created by
db.create_all(), under any sequence of requests (kitchen never changes
the store). -/
inductive Reachable : Store → Prop where
  | init : Reachable []
  | create (s : Store) (tn : Nat) (cn os : Option String) (f : Bool) :
      Reachable s → Reachable (place_order s tn cn os f).1
  | delete (s : Store) (i : Nat) (f : Bool) :
      Reachable s → Reachable (delete_order s i f).1

/-! ### Helper lemmas -/

lemma foldr_max_init (l : List Nat) (a : Nat) :
    l.foldr max a = max (l.foldr max 0) a := by
  induction l with
  | nil => simp
  | cons x t ih => simp only [List.foldr, ih]; omega

lemma le_maxId (s : Store) (i : Nat) (h : i ∈ ids s) : i ≤ maxId s := by
  induction s with
  | nil => simp [ids] at h
  | cons r t ih =>
      simp only [ids, List.map_cons, List.mem_cons] at h
      simp only [maxId, ids, List.map_cons, List.foldr]
      rcases h with h | h
      · omega
      · have := ih h
        simp only [maxId, ids] at this
        omega

lemma nextId_not_mem (s : Store) : nextId s ∉ ids s := by
  intro h
  have := le_maxId s (nextId s) h
  simp [nextId] at this

lemma maxId_append_singleton (s : Store) (r : OrderRow) :
    maxId (s ++ [r]) = max (maxId s) r.id := by
  simp only [maxId, ids, List.map_append, List.foldr_append, List.map_cons,
    List.map_nil, List.foldr]
  rw [foldr_max_init]
  omega

lemma place_order_ok (s : Store) (tn : Nat) (cn os : String) :
    place_order s tn (some cn) (some os) false =
      (s ++ [⟨nextId s, cn, tn, os⟩],
       ⟨200, Body.orderSummary cn tn os⟩) := rfl

lemma eraseP_eq_filter_of_nodup (s : Store) (i : Nat)
    (hnd : (ids s).Nodup) :
    s.eraseP (fun r => r.id == i) = s.filter (fun r => r.id != i) := by
  induction s with
  | nil => rfl
  | cons r t ih =>
      simp only [ids, List.map_cons, List.nodup_cons] at hnd
      by_cases h : r.id = i
      · subst h
        simp only [List.eraseP_cons, beq_self_eq_true, List.filter_cons,
          bne_self_eq_false, Bool.false_eq_true, if_false, cond_true]
        symm
        apply List.filter_eq_self.mpr
        intro a ha
        have : a.id ∈ ids t := List.mem_map.mpr ⟨a, ha, rfl⟩
        have hne : a.id ≠ r.id := fun he => hnd.1 (he ▸ this)
        simpa using hne
      · have hb : (r.id == i) = false := beq_eq_false_iff_ne.mpr h
        simp only [List.eraseP_cons, hb, cond_false, List.filter_cons]
        have hb2 : (r.id != i) = true := by simp [bne, hb]
        rw [hb2]
        simp only [if_true]
        rw [ih hnd.2]

/-! ### Claim theorems -/

/-- C1: for every valid triple (customer_name, table_number, orders) —
both form fields present — a successful create followed by list_all
(Order.query.all() in the kitchen handler) yields a sequence containing
exactly one Order whose customer_name, table_number and orders equal the
given values and whose id is freshly assigned, distinct from the id of
every Order present before the create. -/
theorem C1_create_then_list_exactly_one (s : Store) (tn : Nat) (cn os : String) :
    ((place_order s tn (some cn) (some os) false).1).countP
      (fun r => r.customer_name == cn && r.table_number == tn &&
                r.orders == os && !(decide (r.id ∈ ids s))) = 1 := by
  rw [place_order_ok, List.countP_append]
  have h0 : s.countP
      (fun r => r.customer_name == cn && r.table_number == tn &&
                r.orders == os && !(decide (r.id ∈ ids s))) = 0 := by
    apply List.countP_eq_zero.mpr
    intro r hr
    have hm : r.id ∈ ids s := List.mem_map.mpr ⟨r, hr, rfl⟩
    simp [hm]
  have h1 : List.countP
      (fun r => r.customer_name == cn && r.table_number == tn &&
                r.orders == os && !(decide (r.id ∈ ids s)))
      [(⟨nextId s, cn, tn, os⟩ : OrderRow)] = 1 := by
    have hm : nextId s ∉ ids s := nextId_not_mem s
    simp [List.countP_cons, hm]
  omega

/-- C2: for every id not present in the store, delete_order aborts with
404 (Order.query.get_or_404 finds no row) before any transaction is
started, and the store is exactly the same after the call as before,
whatever the storage environment does. -/
theorem C2_delete_missing_404 (s : Store) (i : Nat) (f : Bool)
    (h : i ∉ ids s) :
    delete_order s i f = (s, ⟨404, Body.notFound⟩) := by
  have hf : s.find? (fun r => r.id == i) = none := by
    apply List.find?_eq_none.mpr
    intro r hr
    have : r.id ≠ i := fun he => h (List.mem_map.mpr ⟨r, hr, he⟩)
    simpa using this
  simp [delete_order, hf]

theorem C2_delete_missing_404_witness :
    999 ∉ ids [(⟨1, "Alice", 4, "2x burger"⟩ : OrderRow)] ∧
    delete_order [(⟨1, "Alice", 4, "2x burger"⟩ : OrderRow)] 999 false =
      ([(⟨1, "Alice", 4, "2x burger"⟩ : OrderRow)], ⟨404, Body.notFound⟩) :=
  ⟨by decide,
   C2_delete_missing_404 [(⟨1, "Alice", 4, "2x burger"⟩ : OrderRow)] 999 false
     (by decide)⟩

/-- C3: for every id present in a store with pairwise-distinct ids (the
primary-key constraint every reachable database state satisfies),
delete_order succeeds with a 302 redirect to the kitchen view, and the
resulting store is exactly the previous rows without the deleted id:
no Order with that id remains, and every other Order is still there. -/
theorem C3_delete_present (s : Store) (i : Nat)
    (hnd : (ids s).Nodup) (h : i ∈ ids s) :
    delete_order s i false =
      (s.filter (fun r => r.id != i), ⟨302, Body.redirectToKitchen⟩) ∧
    (s.filter (fun r => r.id != i)).countP (fun r => r.id == i) = 0 := by
  constructor
  · obtain ⟨r, hr, hri⟩ := List.mem_map.mp h
    have hs : (s.find? (fun r => r.id == i)).isSome := by
      rw [List.find?_isSome]
      exact ⟨r, hr, by simpa using hri⟩
    rcases hfind : s.find? (fun r => r.id == i) with _ | r0
    · rw [hfind] at hs; simp at hs
    · simp [delete_order, hfind, eraseP_eq_filter_of_nodup s i hnd]
  · apply List.countP_eq_zero.mpr
    intro r hr
    have := (List.mem_filter.mp hr).2
    simpa using by simpa using this

theorem C3_delete_present_witness :
    (ids [(⟨1, "Alice", 4, "2x burger"⟩ : OrderRow),
          (⟨2, "Bob", 5, "1x pizza"⟩ : OrderRow)]).Nodup ∧
    1 ∈ ids [(⟨1, "Alice", 4, "2x burger"⟩ : OrderRow),
             (⟨2, "Bob", 5, "1x pizza"⟩ : OrderRow)] ∧
    (delete_order [(⟨1, "Alice", 4, "2x burger"⟩ : OrderRow),
                   (⟨2, "Bob", 5, "1x pizza"⟩ : OrderRow)] 1 false =
      ([(⟨2, "Bob", 5, "1x pizza"⟩ : OrderRow)],
       ⟨302, Body.redirectToKitchen⟩) ∧
     ([(⟨2, "Bob", 5, "1x pizza"⟩ : OrderRow)]).countP
       (fun r => r.id == 1) = 0) :=
  ⟨by decide, by decide, by
    have := C3_delete_present
      [(⟨1, "Alice", 4, "2x burger"⟩ : OrderRow),
       (⟨2, "Bob", 5, "1x pizza"⟩ : OrderRow)] 1 (by decide) (by decide)
    simpa using this⟩

/-- C4: for every store state, if the underlying commit fails during
create, or fails during delete after the row was found, the session is
rolled back and the store is left exactly in its prior state — no
partial row from create, the found row intact for delete — and the
error message is returned with a 500 status. -/
theorem C4_commit_failure_rollback (s : Store) (tn : Nat)
    (cn os : Option String) (i : Nat) (h : i ∈ ids s) :
    place_order s tn cn os true =
      (s, ⟨500, Body.errorText "Error placing order: storage unavailable"⟩) ∧
    delete_order s i true =
      (s, ⟨500, Body.errorText "Error deleting order: storage unavailable"⟩) := by
  constructor
  · rfl
  · obtain ⟨r, hr, hri⟩ := List.mem_map.mp h
    have hs : (s.find? (fun r => r.id == i)).isSome := by
      rw [List.find?_isSome]
      exact ⟨r, hr, by simpa using hri⟩
    rcases hfind : s.find? (fun r => r.id == i) with _ | r0
    · rw [hfind] at hs; simp at hs
    · simp [delete_order, hfind]

theorem C4_commit_failure_rollback_witness :
    1 ∈ ids [(⟨1, "Alice", 4, "2x burger"⟩ : OrderRow)] ∧
    (place_order [(⟨1, "Alice", 4, "2x burger"⟩ : OrderRow)] 7
        (some "Carol") (some "3x tea") true =
      ([(⟨1, "Alice", 4, "2x burger"⟩ : OrderRow)],
       ⟨500, Body.errorText "Error placing order: storage unavailable"⟩) ∧
     delete_order [(⟨1, "Alice", 4, "2x burger"⟩ : OrderRow)] 1 true =
      ([(⟨1, "Alice", 4, "2x burger"⟩ : OrderRow)],
       ⟨500, Body.errorText "Error deleting order: storage unavailable"⟩)) :=
  ⟨by decide,
   C4_commit_failure_rollback [(⟨1, "Alice", 4, "2x burger"⟩ : OrderRow)] 7
     (some "Carol") (some "3x tea") 1 (by decide)⟩

/-- C7: when the customer_name or order_summary form field is absent,
place_order passes None into the Order object, the NOT NULL column
constraint is violated only at commit time inside the storage layer,
and the request fails with a 500 response carrying the raw storage
error message (no distinct validation error); no row is stored. -/
theorem C7_missing_field_storage_error (s : Store) (tn : Nat)
    (cn os : Option String) (h : cn = none ∨ os = none) :
    place_order s tn cn os false =
      (s, ⟨500, Body.errorText "Error placing order: NOT NULL constraint failed"⟩) := by
  rcases h with h | h
  · subst h
    rcases os with _ | o <;> rfl
  · subst h
    rcases cn with _ | c <;> rfl

theorem C7_missing_field_storage_error_witness :
    ((none : Option String) = none ∨ (some "2x burger" : Option String) = none) ∧
    place_order [] 4 none (some "2x burger") false =
      ([], ⟨500, Body.errorText "Error placing order: NOT NULL constraint failed"⟩) :=
  ⟨Or.inl rfl,
   C7_missing_field_storage_error [] 4 none (some "2x burger") (Or.inl rfl)⟩

/-- C8: kitchen (list_all) is read-only — it returns the store
unchanged, always responds with status 200 (it cannot fail under normal
operation), and on the empty store renders the empty sequence rather
than an error. -/
theorem C8_kitchen_readonly (s : Store) :
    (kitchen s).1 = s ∧ (kitchen s).2.status = 200 ∧
    kitchen [] = ([], ⟨200, Body.kitchenView []⟩) :=
  ⟨rfl, rfl, rfl⟩

/-- C5 (amended): in every reachable database state, stored ids are
pairwise distinct — the primary-key uniqueness invariant holds — and
every stored row carries concrete (non-null) customer_name,
table_number and orders, since commitInsert rejects an insert with a
missing field. The original claim's further condition that an id is
never reused by a later create fails (see the counterexample): the
rowid rule maxId + 1 re-assigns an id once the row holding the largest
id is deleted. -/
theorem C5_reachable_ids_nodup (s : Store) (h : Reachable s) :
    (ids s).Nodup := by
  induction h with
  | init => simp [ids]
  | create s tn cn os f _ ih =>
      cases f
      · rcases cn with _ | c
        · rcases os with _ | o <;> exact ih
        · rcases os with _ | o
          · exact ih
          · rw [place_order_ok]
            simp only [ids, List.map_append, List.map_cons, List.map_nil]
            rw [List.nodup_append]
            refine ⟨ih, List.nodup_singleton _, ?_⟩
            intro a ha hb
            simp only [List.mem_singleton] at hb
            subst hb
            exact nextId_not_mem s ha
      · exact ih
  | delete s i f _ ih =>
      rcases hfind : s.find? (fun r => r.id == i) with _ | r0
      · simpa [delete_order, hfind] using ih
      · cases f
        · have hsub : (ids (s.eraseP (fun r => r.id == i))).Sublist (ids s) :=
            (List.eraseP_sublist _).map _
          simpa [delete_order, hfind] using List.Nodup.sublist hsub ih
        · simpa [delete_order, hfind] using ih

theorem C5_reachable_ids_nodup_witness :
    (ids (place_order [] 4 (some "Alice") (some "2x burger") false).1).Nodup :=
  C5_reachable_ids_nodup _
    (Reachable.create [] 4 (some "Alice") (some "2x burger") false Reachable.init)

/-- C5 counterexample for the "no id is ever reused" part of the claim:
the first create in the empty store assigns id 1; after that Order is
deleted, the next create assigns id 1 again, so an id assigned by a
create is re-assigned by a later create. -/
theorem C5_id_reuse_counterexample :
    (place_order [] 4 (some "Alice") (some "2x burger") false).1 =
      [(⟨1, "Alice", 4, "2x burger"⟩ : OrderRow)] ∧
    (place_order
        (delete_order
          (place_order [] 4 (some "Alice") (some "2x burger") false).1
          1 false).1
        7 (some "Bob") (some "1x pizza") false).1 =
      [(⟨1, "Bob", 7, "1x pizza"⟩ : OrderRow)] :=
  ⟨rfl, rfl⟩

/-- C6: create is not idempotent — two successive creates with
identical inputs append two distinct Orders with different ids, and
both appear in the resulting store (hence in a subsequent list_all). -/
theorem C6_create_not_idempotent (s : Store) (tn : Nat) (cn os : String) :
    (place_order s tn (some cn) (some os) false).1 =
      s ++ [⟨nextId s, cn, tn, os⟩] ∧
    (place_order (s ++ [⟨nextId s, cn, tn, os⟩]) tn (some cn) (some os) false).1 =
      (s ++ [⟨nextId s, cn, tn, os⟩]) ++
        [⟨nextId (s ++ [⟨nextId s, cn, tn, os⟩]), cn, tn, os⟩] ∧
    (⟨nextId s, cn, tn, os⟩ : OrderRow) ≠
      (⟨nextId (s ++ [⟨nextId s, cn, tn, os⟩]), cn, tn, os⟩ : OrderRow) ∧
    (⟨nextId s, cn, tn, os⟩ : OrderRow) ∈
      (place_order (s ++ [⟨nextId s, cn, tn, os⟩]) tn (some cn) (some os) false).1 ∧
    (⟨nextId (s ++ [⟨nextId s, cn, tn, os⟩]), cn, tn, os⟩ : OrderRow) ∈
      (place_order (s ++ [⟨nextId s, cn, tn, os⟩]) tn (some cn) (some os) false).1 := by
  have hid : nextId (s ++ [(⟨nextId s, cn, tn, os⟩ : OrderRow)]) = nextId s + 1 := by
    simp only [nextId, maxId_append_singleton]
    omega
  refine ⟨rfl, rfl, ?_, ?_, ?_⟩
  · intro he
    have : nextId s = nextId (s ++ [(⟨nextId s, cn, tn, os⟩ : OrderRow)]) :=
      congrArg OrderRow.id he
    omega
  · rw [place_order_ok]
    simp
  · rw [place_order_ok]
    simp

/-- C9: dict(order) — the iteration protocol of Order — yields exactly
the four key-value pairs id, customer_name, table_number, orders, in
that fixed order and with pairwise-distinct keys (so the resulting dict
has exactly these four entries); the kitchen view renders exactly this
fixed-shape record for every stored Order. -/
theorem C9_order_dict_shape (o : OrderRow) (s : Store) :
    orderDict o =
      [("id", Value.int o.id),
       ("customer_name", Value.str o.customer_name),
       ("table_number", Value.int o.table_number),
       ("orders", Value.str o.orders)] ∧
    (orderDict o).map Prod.fst =
      ["id", "customer_name", "table_number", "orders"] ∧
    ((orderDict o).map Prod.fst).Nodup ∧
    (kitchen s).2.body = Body.kitchenView (s.map orderDict) := by
  refine ⟨rfl, rfl, ?_, rfl⟩
  have h : (orderDict o).map Prod.fst =
      ["id", "customer_name", "table_number", "orders"] := rfl
  rw [h]
  decide

/-- C10: a successful create renders the order summary from exactly the
persisted row's values — the displayed customer_name and orders equal
the stored row's fields, and the displayed table_number equals the path
parameter that was persisted in the row. -/
theorem C10_summary_echoes_persisted (s : Store) (tn : Nat) (cn os : String) :
    place_order s tn (some cn) (some os) false =
      (s ++ [⟨nextId s, cn, tn, os⟩],
       ⟨200,
        Body.orderSummary ((⟨nextId s, cn, tn, os⟩ : OrderRow).customer_name)
          ((⟨nextId s, cn, tn, os⟩ : OrderRow).table_number)
          ((⟨nextId s, cn, tn, os⟩ : OrderRow).orders)⟩) := rfl

end OrderApp
